import Mathlib

/-!
Verification of the `yayabosh/cse-493x` toy web browser (Web Browser
Engineering, chapters 1-5).

This file shallowly embeds the HTML parser of `chapter4.py`
(`HTMLParser`: the lexer loop in `parse`, `add_text`, `add_tag`,
`implicit_tags`, `open_paragraph`, `finish`, `get_attributes`) and the
layout engine of `chapter5.py` (`layout_mode`, `BlockLayout.layout` /
`recurse` / `open_tag` / `close_tag` / `text` / `flush` / `paint`,
`DocumentLayout.layout` / `paint`).

Modelling conventions:
* Python's mutable `Text` / `Element` objects become the inductive `Node`;
  an unfinished (still open) element on `HTMLParser.unfinished` becomes an
  `OpenElem` carrying the children collected so far.
* `HTMLParser.unfinished` keeps the root first and the innermost open
  element last.  The Lean `Stack` keeps the *innermost element first*
  (i.e. the reversed Python list), so `self.unfinished[-1]` is the head
  and `self.unfinished.pop()` is `List.tail`.  `openTags` restores the
  Python (root-first) order for the list comparisons in `implicit_tags`.
* `add_tag` and `implicit_tags` are mutually recursive in the Python
  source (via the paragraph-splitting branch and the implicit-tag
  insertions); the Lean versions take a fuel parameter that strictly
  decreases on every nested call.  Exhausted fuel yields `none`; the
  fuel supplied by the lexer (`tagFuel`) is generous enough for every
  input exercised below.
* Python exceptions (the `ValueError` raised by unpacking
  `text.split(maxsplit=1)` in `get_attributes`, and `IndexError` from
  indexing an empty `unfinished` list) are modelled as `none`.
* Python string methods are modelled on `String.data` (`List Char`);
  `str.lower` / `str.isspace` / `str.split` are modelled for ASCII,
  which covers every string handled here.
-/

/-- A node of the finished HTML tree: `Text` or `Element` of `chapter4.py`.
(`Text.children` is always empty in the source, so text nodes carry no
child list here.) -/
inductive Node where
  | text (s : String) : Node
  | elem (tag : String) (attributes : List (String × String)) (children : List Node) : Node
deriving Repr

/-- An entry of `HTMLParser.unfinished`: an `Element` that has been opened
but not yet closed, together with the children appended to it so far. -/
structure OpenElem where
  tag : String
  attributes : List (String × String)
  children : List Node
deriving Repr

/-- The parser's incomplete tree `HTMLParser.unfinished`, innermost open
element first (the reverse of the Python list order). -/
abbrev Stack := List OpenElem

/-- Close an open element into a finished `Element` node. -/
def closeElem (e : OpenElem) : Node := Node.elem e.tag e.attributes e.children

/-- `parent.children.append(child)`. -/
def appendChild (parent : OpenElem) (child : Node) : OpenElem :=
  { parent with children := parent.children ++ [child] }

/-- `[node.tag for node in self.unfinished]` in Python order (root first). -/
def openTags (st : Stack) : List String := (st.map (fun e => e.tag)).reverse

/-- Python `str.split()` whitespace and `str.isspace` characters (ASCII). -/
def isPyWs (c : Char) : Bool :=
  c = ' ' ∨ c = '\t' ∨ c = '\n' ∨ c = '\r' ∨ c = '\x0b' ∨ c = '\x0c'

/-- Python `str.lower` (ASCII). -/
def lowerStr (s : String) : String := ⟨s.data.map Char.toLower⟩

/-- Python `s.isspace()`: nonempty and all whitespace. -/
def pyIsSpace (s : String) : Bool := ¬ s.data.isEmpty ∧ s.data.all isPyWs

/-- Python `s.startswith(c)` for a single-character prefix. -/
def pyStartsWith (s : String) (c : Char) : Bool :=
  match s.data with
  | [] => false
  | c' :: _ => c' = c

/-- Assignment `d[k] = v` on a Python `dict` modelled as an insertion-ordered
association list: an existing key keeps its position and is overwritten,
a new key is appended at the end. -/
def dictInsert (k v : String) (d : List (String × String)) : List (String × String) :=
  if d.any (fun p => p.1 = k) then
    d.map (fun p => if p.1 = k then (k, v) else p)
  else d ++ [(k, v)]

/-- Python `text.split(maxsplit=1)` followed by the unpacking
`tag, attrpairs = ...` in `get_attributes`:
strip leading whitespace, take the first whitespace-free token, strip the
separating whitespace run; `none` models the `ValueError` raised when the
split yields fewer than two parts. -/
def pySplit1 (s : String) : Option (String × String) :=
  let cs := s.data.dropWhile isPyWs
  match cs with
  | [] => none
  | _ :: _ =>
    let tag := cs.takeWhile (fun c => ¬ isPyWs c)
    let rest := (cs.dropWhile (fun c => ¬ isPyWs c)).dropWhile isPyWs
    if rest.isEmpty then none else some (⟨tag⟩, ⟨rest⟩)

/-- The loop state of `HTMLParser.get_attributes` (lines 373-383 of
`chapter4.py`). -/
structure AttrState where
  attributes : List (String × String)
  current_key : List Char
  current_value : List Char
  building_key : Bool
  in_escape : Bool
  in_single_quote : Bool
  in_double_quote : Bool
deriving Repr, DecidableEq

def AttrState.init : AttrState :=
  { attributes := [], current_key := [], current_value := [],
    building_key := true, in_escape := false,
    in_single_quote := false, in_double_quote := false }

/-- The commit sequence `attributes[current_key.lower()] = current_value`
followed by resetting the key/value buffers and `building_key = True`
(repeated verbatim at three places in the source loop). -/
def attrCommit (st : AttrState) : AttrState :=
  { st with
    attributes := dictInsert (lowerStr ⟨st.current_key⟩) ⟨st.current_value⟩ st.attributes,
    current_key := [], current_value := [], building_key := true }

/-- One iteration of the `for c in attrpairs` loop of `get_attributes`
(lines 385-467 of `chapter4.py`). -/
def attrStep (st : AttrState) (c : Char) : AttrState :=
  if c = ' ' then
    if st.building_key then st
    else if st.in_single_quote ∨ st.in_double_quote then
      { st with current_value := st.current_value ++ [c] }
    else attrCommit st
  else if c = '=' then
    if st.building_key then
      if st.current_key.isEmpty then { st with current_key := st.current_key ++ [c] }
      else { st with building_key := false }
    else { st with current_value := st.current_value ++ [c] }
  else if c = '"' then
    if st.in_escape then { st with current_value := st.current_value ++ [c], in_escape := false }
    else if st.in_single_quote then { st with current_value := st.current_value ++ [c] }
    else
      let st' := if st.in_double_quote then attrCommit st else st
      { st' with in_double_quote := ¬ st.in_double_quote }
  else if c = '\'' then
    if st.in_escape then { st with current_value := st.current_value ++ [c], in_escape := false }
    else if st.in_double_quote then { st with current_value := st.current_value ++ [c] }
    else
      let st' := if st.in_single_quote then attrCommit st else st
      { st' with in_single_quote := ¬ st.in_single_quote }
  else if c = '\\' then
    let st' := if st.in_escape then { st with current_value := st.current_value ++ [c] } else st
    { st' with in_escape := ¬ st.in_escape }
  else if st.building_key then { st with current_key := st.current_key ++ [c] }
  else { st with current_value := st.current_value ++ [c] }

/-- The trailing `if current_key: attributes[current_key.lower()] =
current_value` of `get_attributes` (lines 470-471 of `chapter4.py`). -/
def attrFinalize (fin : AttrState) : List (String × String) :=
  if fin.current_key.isEmpty then fin.attributes
  else dictInsert (lowerStr ⟨fin.current_key⟩) ⟨fin.current_value⟩ fin.attributes

/-- `HTMLParser.get_attributes` (lines 368-473 of `chapter4.py`). -/
def get_attributes (text : String) : Option (String × List (String × String)) :=
  if ¬ text.data.contains ' ' then some (text, [])
  else
    match pySplit1 text with
    | none => none
    | some (tag, attrpairs) =>
      some (tag, attrFinalize (attrpairs.data.foldl attrStep AttrState.init))

/-- `HTMLParser.HEAD_TAGS`. -/
def HEAD_TAGS : List String :=
  ["base", "basefont", "bgsound", "noscript", "link", "meta", "title", "style", "script"]

/-- `HTMLParser.SELF_CLOSING_TAGS`. -/
def SELF_CLOSING_TAGS : List String :=
  ["area", "base", "br", "col", "embed", "hr", "img", "input", "link",
   "meta", "param", "source", "track", "wbr"]

/-- `HTMLParser.open_paragraph`: is a `p` element open anywhere on the
unfinished stack?  (Every stack entry is an `Element`, so the
`isinstance` check of the source is always true here.) -/
def open_paragraph (st : Stack) : Bool := st.any (fun e => e.tag = "p")

mutual

/-- `HTMLParser.implicit_tags` (lines 302-335 of `chapter4.py`).
`tag = none` models the `None` passed by `add_text`.  The `while True`
loop recurses on the fuel. -/
def implicit_tags : Nat → Option String → Stack → Option Stack
  | 0, _, _ => none
  | fuel + 1, tag, st =>
    let open_tags := openTags st
    if open_tags = [] ∧ tag ≠ some "html" then
      match add_tag fuel "html" st with
      | none => none
      | some st' => implicit_tags fuel tag st'
    else if open_tags = ["html"] ∧ tag ∉ ["head", "body", "/html"].map some then
      if tag ∈ HEAD_TAGS.map some then
        match add_tag fuel "head" st with
        | none => none
        | some st' => implicit_tags fuel tag st'
      else
        match add_tag fuel "body" st with
        | none => none
        | some st' => implicit_tags fuel tag st'
    else if open_tags = ["html", "head"] ∧ tag ∉ (["/head"] ++ HEAD_TAGS).map some then
      match add_tag fuel "/head" st with
      | none => none
      | some st' => implicit_tags fuel tag st'
    else some st

/-- `HTMLParser.add_tag` (lines 225-300 of `chapter4.py`), as a transformer
of the unfinished stack (the Python return value is used nowhere live in
the source, so it is not modelled).  `none` models either exhausted fuel
or a raised exception (`ValueError` from `get_attributes`, `IndexError`
from indexing an empty stack). -/
def add_tag : Nat → String → Stack → Option Stack
  | 0, _, _ => none
  | fuel + 1, t, st =>
    match get_attributes t with
    | none => none
    | some (tag, attributes) =>
      if pyStartsWith tag '!' then some st
      else
        match implicit_tags fuel (some tag) st with
        | none => none
        | some st =>
          if pyStartsWith tag '/' then
            if st.length = 1 then some st
            else
              match st with
              | node :: parent :: rest => some (appendChild parent (closeElem node) :: rest)
              | _ => none
          else if SELF_CLOSING_TAGS.contains tag then
            match st with
            | parent :: rest =>
              some (appendChild parent (closeElem ⟨tag, attributes, []⟩) :: rest)
            | [] => none
          else if tag = "p" ∧ open_paragraph st then
            -- paragraph splitting (lines 263-293)
            let unclosed := (st.takeWhile (fun e => e.tag ≠ "p")).map (fun e => e.tag)
            match add_tag fuel "/p" st with
            | none => none
            | some st =>
              match add_tag fuel "p" st with
              | none => none
              | some st => reopen fuel unclosed.reverse st
          else some ({ tag := tag, attributes := attributes, children := [] } :: st)

/-- The re-opening loop `for node in unclosed: self.add_tag(node.tag)` at
the end of the paragraph-splitting branch. -/
def reopen : Nat → List String → Stack → Option Stack
  | 0, _, _ => none
  | _ + 1, [], st => some st
  | fuel + 1, tg :: rest, st =>
    match add_tag fuel tg st with
    | none => none
    | some st' => reopen fuel rest st'

end

/-- `HTMLParser.add_text` (lines 209-223 of `chapter4.py`). -/
def add_text (fuel : Nat) (text : String) (st : Stack) : Option Stack :=
  if pyIsSpace text then some st
  else
    match implicit_tags fuel none st with
    | none => none
    | some st =>
      match st with
      | parent :: rest => some (appendChild parent (Node.text text) :: rest)
      | [] => none

/-- Fuel supplied to `add_tag` / `add_text` / `implicit_tags` for a call on
a given stack; large enough for every chain of nested calls the source
performs from a reachable state. -/
def tagFuel (st : Stack) : Nat := 3 * st.length + 24

/-- The lexer state of `HTMLParser.parse` (lines 90-101 of `chapter4.py`):
the text buffer and the flag set of the finite state machine, plus the
unfinished-tree stack updated through `add_text` / `add_tag`. -/
structure LexState where
  text : List Char
  in_tag : Bool
  in_comment : Bool
  in_single_quote : Bool
  in_double_quote : Bool
  in_script_tag : Bool
  unfinished : Stack
deriving Repr

def LexState.init : LexState :=
  { text := [], in_tag := false, in_comment := false, in_single_quote := false,
    in_double_quote := false, in_script_tag := false, unfinished := [] }

/-- One iteration of the `while i < len(self.body)` loop of
`HTMLParser.parse` (lines 103-201 of `chapter4.py`), given the current
character `c` and the remaining input `rest`: returns the updated lexer
state and the remaining input (Python advances `i` by 4, 3 or 1);
`none` models an exception propagating out of `add_text` / `add_tag`.
Note that the assignment `in_script_tag = True` after `add_tag`
(lines 195-196 of the source) is commented out in the source, so no
transition ever sets `in_script_tag`. -/
def lexStep (st : LexState) (c : Char) (rest : List Char) :
    Option (LexState × List Char) :=
  -- comment opening: `self.body[i : i + 4] == "<!--"`
  if ¬ st.in_comment ∧ (c = '<' ∧ rest.take 3 = "!--".data) then
    some ({ st with in_comment := true }, rest.drop 3)
  -- comment closing: `self.body[i : i + 3] == "-->"`
  else if st.in_comment ∧ (c = '-' ∧ rest.take 2 = "->".data) then
    if ¬ st.text.isEmpty ∧ ¬ st.in_tag then
      match add_text (tagFuel st.unfinished) ⟨st.text⟩ st.unfinished with
      | none => none
      | some stk =>
        some ({ st with in_comment := false, text := [], unfinished := stk }, rest.drop 2)
    else some ({ st with in_comment := false }, rest.drop 2)
  else if st.in_comment then some (st, rest)
  else
    -- quote tracking inside a tag (lines 136-140)
    let st :=
      if st.in_tag then
        if c = '"' ∧ ¬ st.in_single_quote then
          { st with in_double_quote := ¬ st.in_double_quote }
        else if c = '\'' ∧ ¬ st.in_double_quote then
          { st with in_single_quote := ¬ st.in_single_quote }
        else st
      else st
    if c = '<' then
      -- inside a script tag, `<` is literal text unless `</script>` follows
      if st.in_script_tag ∧ ¬ (rest.take 8 = "/script>".data) then
        some ({ st with text := st.text ++ [c] }, rest)
      -- inside a quoted attribute value, `<` is literal text
      else if ¬ st.in_script_tag ∧ ((st.in_tag ∧ st.in_single_quote) ∨ st.in_double_quote) then
        some ({ st with text := st.text ++ [c] }, rest)
      else
        -- open a tag; flush any pending text first
        match
          (if st.text.isEmpty then some st.unfinished
           else add_text (tagFuel st.unfinished) ⟨st.text⟩ st.unfinished) with
        | none => none
        | some stk =>
          some ({ st with in_script_tag := false, in_tag := true, text := [],
                          unfinished := stk }, rest)
    else if c = '>' then
      if st.in_script_tag then some ({ st with text := st.text ++ [c] }, rest)
      else if (st.in_tag ∧ st.in_single_quote) ∨ st.in_double_quote then
        some ({ st with text := st.text ++ [c] }, rest)
      else
        match add_tag (tagFuel st.unfinished) ⟨st.text⟩ st.unfinished with
        | none => none
        | some stk =>
          some ({ st with in_tag := false, text := [], unfinished := stk }, rest)
    else some ({ st with text := st.text ++ [c] }, rest)

/-- The `while i < len(self.body)` loop: iterate `lexStep` until the
input is exhausted.  The fuel makes the recursion structural; every
step consumes at least one character, so `parse` supplies fuel
`body.length`. -/
def runLex : Nat → LexState → List Char → Option LexState
  | _, st, [] => some st
  | 0, _, _ :: _ => none
  | fuel + 1, st, c :: rest =>
    match lexStep st c rest with
    | none => none
    | some (st', cs') => runLex fuel st' cs'

/-- The body of `HTMLParser.finish`\'s `while len(self.unfinished) > 1`
loop: repeatedly pop the innermost unfinished node (`acc`) and append it
to its parent; returns the root when it alone remains. -/
def closeAllAux (acc : OpenElem) : Stack → Node
  | [] => closeElem acc
  | parent :: rest => closeAllAux (appendChild parent (closeElem acc)) rest

/-- `while len(self.unfinished) > 1: ...` followed by the final
`self.unfinished.pop()` of `HTMLParser.finish`. -/
def closeAll (st : Stack) : Option Node :=
  match st with
  | [] => none
  | node :: rest => some (closeAllAux node rest)

/-- `HTMLParser.finish` (lines 348-364 of `chapter4.py`). -/
def finish (st : Stack) : Option Node :=
  match (if st.length = 0 then add_tag (tagFuel st) "html" st else some st) with
  | none => none
  | some st => closeAll st

/-- `HTMLParser.parse` (lines 90-206 of `chapter4.py`): run the lexer loop
over the whole body, flush a trailing text buffer, and finish the tree. -/
def parse (body : String) : Option Node :=
  match runLex body.data.length LexState.init body.data with
  | none => none
  | some st =>
    match
      (if ¬ st.text.isEmpty ∧ ¬ st.in_tag then
        add_text (tagFuel st.unfinished) ⟨st.text⟩ st.unfinished
       else some st.unfinished) with
    | none => none
    | some stk => finish stk

/-!
## Layout engine (`chapter5.py`)

Embedding conventions for layout:
* tkinter font objects are identified by the `(size, weight, slant)`
  triple requested from `get_font`; their metrics (`measure`,
  `metrics("ascent")`, `metrics("descent")`, `metrics("linespace")`) are
  injected through a `FontOracle`, all integer-valued as in tkinter.
* Horizontal quantities (`x`, `width`, `cursor_x`, measures) are
  integers; vertical quantities (`y`, `height`, `cursor_y`, baselines)
  are rationals, because `flush` multiplies integer ascents/descents by
  the float `1.25 = 5/4` (exact in binary floating point, as are all the
  sums formed from such values here).
* The call `get_font(self.size, self.weight, self.style)` in
  `BlockLayout.text` passes three arguments, while the `get_font`
  imported from `chapter3.py` requires four (`size`, `weight`, `slant`,
  `family`) with no defaults, so in Python the call raises `TypeError`.
  The total model below (`BlockLayout.layout` etc.) is the layout
  algorithm with the font injected, i.e. the behaviour the code
  specifies modulo that faulty call; the arity fault itself is modelled
  separately by `callGetFont3` / `layoutChecked`, which track exactly
  whether the traversal performs the faulty call.
-/

/-- Constants from `chapter2.py`. -/
def WIDTH : Int := 800

def HEIGHT : Int := 600

def HSTEP : Int := 13

def VSTEP : Int := 18

/-- `BLOCK_ELEMENTS` of `chapter5.py`. -/
def BLOCK_ELEMENTS : List String :=
  ["html", "body", "article", "section", "nav", "aside",
   "h1", "h2", "h3", "h4", "h5", "h6", "hgroup", "header", "footer",
   "address", "p", "hr", "pre", "blockquote", "ol", "ul", "menu", "li",
   "dl", "dt", "dd", "figure", "figcaption", "main", "div", "table",
   "form", "fieldset", "legend", "details", "summary"]

/-- Children of a node (`node.children`; a `Text` has none). -/
def Node.childrenOf : Node → List Node
  | Node.text _ => []
  | Node.elem _ _ children => children

/-- Is this node an `Element` whose tag is `t`? -/
def isElemTag (t : String) : Node → Bool
  | Node.elem tag _ _ => tag = t
  | Node.text _ => false

/-- `layout_mode` of `chapter5.py` (lines 57-71). -/
def layout_mode (node : Node) : String :=
  match node with
  | Node.text _ => "inline"
  | Node.elem _ _ children =>
    if ¬ children.isEmpty then
      if children.any (fun child =>
          match child with
          | Node.elem t _ _ => BLOCK_ELEMENTS.contains t
          | Node.text _ => false) then "block"
      else "inline"
    else "block"

/-- A tkinter font as requested by `get_font(size, weight, style)`. -/
structure Font where
  size : Int
  weight : String
  style : String
deriving Repr, DecidableEq

/-- Injected tkinter font metrics: `font.measure(text)`,
`font.metrics("ascent")`, `font.metrics("descent")`,
`font.metrics("linespace")`. -/
structure FontOracle where
  measure : Font → String → Int
  ascent : Font → Int
  descent : Font → Int
  linespace : Font → Int

/-- Python `text.split()` (split on whitespace runs, no empty words). -/
def pySplitWsAux : List Char → List Char → List String
  | [], acc => if acc.isEmpty then [] else [⟨acc⟩]
  | c :: cs, acc =>
    if isPyWs c then
      if acc.isEmpty then pySplitWsAux cs []
      else (⟨acc⟩ : String) :: pySplitWsAux cs []
    else pySplitWsAux cs (acc ++ [c])

def pySplitWs (s : String) : List String := pySplitWsAux s.data []

/-- Python `max` on a list of ints (the empty case never arises: every
use is guarded by `if not self.line: return`). -/
def listMaxInt : List Int → Int
  | [] => 0
  | x :: xs => xs.foldl max x

/-- The mutable fields of a `BlockLayout` during the inline branch of
`layout`: `x` and `width` (mutated by `open_tag("li")`), the cursors,
the current style, the pending `line` of `(cursor_x, word, font)`
triples, and the finished `display_list` of `(x, y, word, font)`
tuples.  `y` is fixed for the whole inline run and is passed separately
to the functions that read it. -/
structure InlineState where
  x : Int
  width : Int
  cursor_x : Int
  cursor_y : ℚ
  weight : String
  style : String
  size : Int
  line_height : ℚ
  line : List (Int × String × Font)
  display_list : List (ℚ × ℚ × String × Font)
deriving Repr, DecidableEq

namespace BlockLayout

/-- `BlockLayout.flush` (lines 173-188 of `chapter5.py`); `y` is `self.y`. -/
def flush (fo : FontOracle) (y : ℚ) (st : InlineState) : InlineState :=
  if st.line.isEmpty then st
  else
    let metricsAscent := st.line.map (fun it => fo.ascent it.2.2)
    let max_ascent := listMaxInt metricsAscent
    let baseline : ℚ := st.cursor_y + (5 / 4 : ℚ) * (max_ascent : ℚ)
    let newItems := st.line.map (fun it =>
      (((st.x : ℚ) + (it.1 : ℚ)), y + baseline - (fo.ascent it.2.2 : ℚ), it.2.1, it.2.2))
    let metricsDescent := st.line.map (fun it => fo.descent it.2.2)
    let max_descent := listMaxInt metricsDescent
    let cursor_y' := baseline + (5 / 4 : ℚ) * (max_descent : ℚ)
    { st with
      display_list := st.display_list ++ newItems,
      cursor_x := 0, line := [],
      cursor_y := cursor_y',
      line_height := if st.line_height = 0 then cursor_y' else st.line_height }

/-- `BlockLayout.text` (lines 164-171 of `chapter5.py`): the font is the
one requested for the current size/weight/style; each word is measured,
the line is flushed when `cursor_x + w` would pass `width`, and the word
is appended to the pending line. -/
def text (fo : FontOracle) (y : ℚ) (st : InlineState) (s : String) : InlineState :=
  let font : Font := { size := st.size, weight := st.weight, style := st.style }
  (pySplitWs s).foldl (fun st word =>
    let w := fo.measure font word
    let st := if st.cursor_x + w > st.width then flush fo y st else st
    { st with
      line := st.line ++ [(st.cursor_x, word, font)],
      cursor_x := st.cursor_x + w + fo.measure font " " }) st

/-- `BlockLayout.open_tag` (lines 134-147 of `chapter5.py`). -/
def open_tag (fo : FontOracle) (y : ℚ) (st : InlineState) (tag : String) : InlineState :=
  if tag = "i" then { st with style := "italic" }
  else if tag = "b" then { st with weight := "bold" }
  else if tag = "small" then { st with size := st.size - 2 }
  else if tag = "big" then { st with size := st.size + 4 }
  else if tag = "br" then flush fo y st
  else if tag = "li" then { st with x := st.x + 2 * HSTEP, width := st.width - 2 * HSTEP }
  else st

/-- `BlockLayout.close_tag` (lines 149-162 of `chapter5.py`); the final
`elif tag == "/li": pass` branch changes nothing. -/
def close_tag (fo : FontOracle) (y : ℚ) (st : InlineState) (tag : String) : InlineState :=
  if tag = "i" then { st with style := "roman" }
  else if tag = "b" then { st with weight := "normal" }
  else if tag = "small" then { st with size := st.size + 2 }
  else if tag = "big" then { st with size := st.size - 4 }
  else if tag = "p" then
    let st := flush fo y st
    { st with cursor_y := st.cursor_y + (VSTEP : ℚ) }
  else st

mutual

/-- `BlockLayout.recurse` (lines 125-132 of `chapter5.py`). -/
def recurse (fo : FontOracle) (y : ℚ) (st : InlineState) : Node → InlineState
  | Node.text s => text fo y st s
  | Node.elem tag _ children =>
    close_tag fo y (recurseList fo y (open_tag fo y st tag) children) tag

/-- The `for child in node.children: self.recurse(child)` loop. -/
def recurseList (fo : FontOracle) (y : ℚ) (st : InlineState) : List Node → InlineState
  | [] => st
  | c :: cs => recurseList fo y (recurse fo y st c) cs

end

/-- The inline (`else`) branch of `BlockLayout.layout`
(lines 103-115 of `chapter5.py`): initialise the cursors and style,
recurse over the node, and flush the last line. -/
def inlineLayout (fo : FontOracle) (node : Node) (x : Int) (y : ℚ) (width : Int) :
    InlineState :=
  let st : InlineState :=
    { x := x, width := width, cursor_x := 0, cursor_y := 0,
      weight := "normal", style := "roman", size := 16, line_height := 0,
      line := [], display_list := [] }
  flush fo y (recurse fo y st node)

end BlockLayout

/-- The result of `BlockLayout.layout` for one box: the node, the final
geometry fields, the child boxes, and — for a box whose inline branch
ran — the `display_list`, `line_height` and final `cursor_y` it set.
For a block-mode box those three attributes are never assigned in
Python, hence the `Option` (and the empty display list). -/
inductive Box where
  | mk (node : Node) (x : Int) (y : ℚ) (width : Int) (height : ℚ)
      (children : List Box)
      (display_list : List (ℚ × ℚ × String × Font))
      (line_height : Option ℚ) (cursor_y : Option ℚ) : Box

def Box.node : Box → Node
  | Box.mk n _ _ _ _ _ _ _ _ => n

def Box.x : Box → Int
  | Box.mk _ x _ _ _ _ _ _ _ => x

def Box.y : Box → ℚ
  | Box.mk _ _ y _ _ _ _ _ _ => y

def Box.width : Box → Int
  | Box.mk _ _ _ w _ _ _ _ _ => w

def Box.height : Box → ℚ
  | Box.mk _ _ _ _ h _ _ _ _ => h

def Box.children : Box → List Box
  | Box.mk _ _ _ _ _ c _ _ _ => c

def Box.display_list : Box → List (ℚ × ℚ × String × Font)
  | Box.mk _ _ _ _ _ _ d _ _ => d

def Box.line_height : Box → Option ℚ
  | Box.mk _ _ _ _ _ _ _ lh _ => lh

def Box.cursor_y : Box → Option ℚ
  | Box.mk _ _ _ _ _ _ _ _ cy => cy

/-- `self.height = sum([child.height for child in self.children])`. -/
def sumHeights (children : List Box) : ℚ :=
  children.foldl (fun acc b => acc + b.height) 0

mutual

/-- `BlockLayout.layout` (lines 85-123 of `chapter5.py`) as a function of
the geometry inherited from the parent and previous sibling: `x` and
`width` are copied from the parent, and the caller passes as `y` either
`parent.y` (no previous sibling) or `previous.y + previous.height`. -/
def layoutBox (fo : FontOracle) (node : Node) (x : Int) (y : ℚ) (width : Int) : Box :=
  match node with
  | Node.text s =>
    -- a Text node is always in inline mode
    let st := BlockLayout.inlineLayout fo (Node.text s) x y width
    Box.mk (Node.text s) st.x y st.width st.cursor_y [] st.display_list
      (some st.line_height) (some st.cursor_y)
  | Node.elem tag attrs children =>
    if layout_mode (Node.elem tag attrs children) = "block" then
      let childBoxes := layoutBoxes fo children x y width
      Box.mk (Node.elem tag attrs children) x y width (sumHeights childBoxes)
        childBoxes [] none none
    else
      let st := BlockLayout.inlineLayout fo (Node.elem tag attrs children) x y width
      Box.mk (Node.elem tag attrs children) st.x y st.width st.cursor_y []
        st.display_list (some st.line_height) (some st.cursor_y)

/-- The block branch's child loop: one box per child node, skipping a
`head` element (`continue`), each child laid out at
`y = previous.y + previous.height`. -/
def layoutBoxes (fo : FontOracle) (nodes : List Node) (x : Int) (y : ℚ) (width : Int) :
    List Box :=
  match nodes with
  | [] => []
  | c :: cs =>
    if isElemTag "head" c then layoutBoxes fo cs x y width
    else
      let b := layoutBox fo c x y width
      b :: layoutBoxes fo cs x (b.y + b.height) width

end

/-- Paint commands: `DrawRect(x1, y1, x2, y2, color)` and
`DrawText(x1, y1, text, font)` (whose `bottom` is
`y1 + font.metrics("linespace")`). -/
inductive DrawCmd where
  | rect (left top right bottom : ℚ) (color : String)
  | txt (left top : ℚ) (s : String) (font : Font) (bottom : ℚ)
deriving Repr, DecidableEq

/-- `self.node.attributes.get(key, None)`. -/
def attrsGet (attrs : List (String × String)) (key : String) : Option String :=
  (attrs.find? (fun p => p.1 = key)).map (fun p => p.2)

/-- Does the node satisfy the `nav`/`class="links"` test of
`BlockLayout.paint`? -/
def isNavLinks : Node → Bool
  | Node.elem tag attrs _ => tag = "nav" ∧ attrsGet attrs "class" = some "links"
  | Node.text _ => false

mutual

/-- `BlockLayout.paint` (lines 190-218 of `chapter5.py`), appending into
the accumulated display list.  `none` models the `AttributeError`
raised when a block-mode `li` box (which never set `line_height`)
reaches the `li` bullet branch. -/
def paintBox (fo : FontOracle) (b : Box) (acc : List DrawCmd) : Option (List DrawCmd) :=
  match b with
  | Box.mk node x y width height children display_list line_height _ =>
    let acc :=
      if isNavLinks node then
        acc ++ [DrawCmd.rect (x : ℚ) y ((x : ℚ) + (width : ℚ)) (y + height) "lightgray"]
      else acc
    let acc :=
      if isElemTag "pre" node then
        acc ++ [DrawCmd.rect (x : ℚ) y ((x : ℚ) + (width : ℚ)) (y + height) "gray"]
      else acc
    match
      (if isElemTag "li" node then
        match line_height with
        | none => none
        | some lh =>
          let lx : ℚ := (x : ℚ) - (HSTEP : ℚ) - 2
          let ly : ℚ := y + lh / 2 - 2
          some (acc ++ [DrawCmd.rect lx ly (lx + 4) (ly + 4) "black"])
      else some acc) with
    | none => none
    | some acc =>
      let acc :=
        if layout_mode node = "inline" then
          acc ++ display_list.map (fun it =>
            DrawCmd.txt it.1 it.2.1 it.2.2.1 it.2.2.2 (it.2.1 + (fo.linespace it.2.2.2 : ℚ)))
        else acc
      paintBoxes fo children acc

/-- The `for child in self.children: child.paint(display_list)` loop. -/
def paintBoxes (fo : FontOracle) (bs : List Box) (acc : List DrawCmd) :
    Option (List DrawCmd) :=
  match bs with
  | [] => some acc
  | b :: rest =>
    match paintBox fo b acc with
    | none => none
    | some acc => paintBoxes fo rest acc

end

/-- The state of a `DocumentLayout`: its node, the `children` list
(appended to by every `layout()` call), and the geometry fields, which
are unset (`none`) until `layout()` runs. -/
structure DocumentState where
  node : Node
  children : List Box
  width : Option Int
  x : Option Int
  y : Option ℚ
  height : Option ℚ

/-- `DocumentLayout.__init__`. -/
def DocumentLayout.init (node : Node) : DocumentState :=
  { node := node, children := [], width := none, x := none, y := none, height := none }

/-- `DocumentLayout.layout` (lines 234-242 of `chapter5.py`): build a new
root `BlockLayout`, *append* it to `children`, set the geometry, and lay
the new child out. -/
def DocumentLayout.layout (fo : FontOracle) (d : DocumentState) : DocumentState :=
  let child := layoutBox fo d.node HSTEP (VSTEP : ℚ) (WIDTH - 2 * HSTEP)
  { d with
    children := d.children ++ [child],
    width := some (WIDTH - 2 * HSTEP), x := some HSTEP, y := some (VSTEP : ℚ),
    height := some (child.height + 2 * (VSTEP : ℚ)) }

/-- `DocumentLayout.paint` (lines 244-245): paint `self.children[0]`;
`none` models the `IndexError` when no layout has run. -/
def DocumentLayout.paint (fo : FontOracle) (d : DocumentState) : Option (List DrawCmd) :=
  match d.children with
  | [] => none
  | c :: _ => paintBox fo c []

/-!
## The faulty `get_font` call (`chapter5.py` line 165 vs `chapter3.py` line 72)

`BlockLayout.text` begins with `font = get_font(self.size, self.weight,
self.style)` — three positional arguments — but the imported
`chapter3.get_font(size, weight, slant, family)` has four required
parameters, so the call raises `TypeError` before any word is measured.
`layoutChecked` mirrors the layout traversal, propagating exactly this
one failure; everything else the traversal does is arithmetic and list
manipulation that cannot raise.
-/

inductive PyErr where
  | typeError
deriving Repr, DecidableEq

/-- Number of required parameters of `chapter3.get_font`. -/
def getFontParamCount : Nat := 4

/-- Number of arguments passed at the call in `BlockLayout.text`. -/
def textCallArgCount : Nat := 3

/-- The call `get_font(self.size, self.weight, self.style)`: checking the
argument count against the signature. -/
def callGetFont3 : Except PyErr Unit :=
  if textCallArgCount = getFontParamCount then Except.ok () else Except.error PyErr.typeError

mutual

/-- `BlockLayout.recurse`, tracking only whether a raising call is
reached: `text(node)` performs the faulty `get_font` call first of all;
`open_tag` / `close_tag` cannot raise. -/
def recurseChecked : Node → Except PyErr Unit
  | Node.text _ => do
    let _ ← callGetFont3
    Except.ok ()
  | Node.elem _ _ children => recurseListChecked children

def recurseListChecked : List Node → Except PyErr Unit
  | [] => Except.ok ()
  | c :: cs => do
    recurseChecked c
    recurseListChecked cs

end

mutual

/-- `BlockLayout.layout`, tracking only whether the traversal reaches the
faulty `get_font` call in `BlockLayout.text`. -/
def layoutChecked : Node → Except PyErr Unit
  | Node.text s => recurseChecked (Node.text s)
  | Node.elem tag attrs children =>
    if layout_mode (Node.elem tag attrs children) = "block" then
      layoutBoxesChecked children
    else recurseChecked (Node.elem tag attrs children)

def layoutBoxesChecked : List Node → Except PyErr Unit
  | [] => Except.ok ()
  | c :: cs =>
    if isElemTag "head" c then layoutBoxesChecked cs
    else do
      layoutChecked c
      layoutBoxesChecked cs

end

/-- `DocumentLayout.layout` followed by the root box's layout, checked. -/
def documentLayoutChecked (node : Node) : Except PyErr Unit := layoutChecked node

mutual

/-- Does a node's subtree contain any `Text` node? -/
def hasTextNode : Node → Bool
  | Node.text _ => true
  | Node.elem _ _ children => hasTextNodeList children

def hasTextNodeList : List Node → Bool
  | [] => false
  | c :: cs => hasTextNode c || hasTextNodeList cs

end

mutual

/-- Does the layout traversal starting at this node reach
`BlockLayout.text`?  A block-mode box descends into its non-`head`
children; an inline-mode box recurses over its whole subtree. -/
def textReachable : Node → Bool
  | Node.text _ => true
  | Node.elem tag attrs children =>
    if layout_mode (Node.elem tag attrs children) = "block" then
      textReachableList children
    else hasTextNodeList children

def textReachableList : List Node → Bool
  | [] => false
  | c :: cs =>
    (if isElemTag "head" c then false else textReachable c) || textReachableList cs

end

/-!
## Theorems
-/

/-- **C1** (code bug).  The spec says that after a `<script>` start tag
every `<` and `>` is literal text until `</script>`, and that
`<script>if (a<b) {}</script>` yields a script element with the single
text child `"if (a<b) {}"`.  The source's own comments (chapter4.py
lines 142-145) state this intent and the `in_script_tag` machinery
exists, but the assignment `in_script_tag = True` (lines 195-196) is
commented out, so the flag is never set: the `<` of `<b)` is treated as
a tag opener.  This theorem evaluates the parser at the spec's own
example and exhibits the actual (diverging) result: the script element
holds two text children `"if (a"` and `"b) {}"` and the `<` was
consumed as markup. -/
theorem c1_script_contents_not_literal :
    parse "<script>if (a<b) {}</script>" =
      some (Node.elem "html" []
        [Node.elem "head" []
          [Node.elem "script" [] [Node.text "if (a", Node.text "b) {}"]]]) := by
  rfl

/-- **C3** (code bug).  The spec says that opening a `p` while a `p` is
open closes the old paragraph and re-opens each element that was open
between the innermost position and the `p` *once*, in original order —
so `<p>x<b>y<i>z<p>w` should give a second paragraph `p > b > i > w`.
The paragraph-splitting branch of `add_tag` recurses through
`self.add_tag("p")`, and every recursion level re-opens its own
collected suffix, so elements near the `p` are re-opened once per
level: the code actually produces `p > b > b > i > w`, duplicating
`b`.  (With at most one open element above the `p` the levels coincide,
which is why the spec's `<p>hello<p>world</p>` example does come out as
two siblings.)  This theorem evaluates the parser at the failing
input. -/
theorem c3_paragraph_split_duplicates_wrappers :
    parse "<p>x<b>y<i>z<p>w" =
      some (Node.elem "html" []
        [Node.elem "body" []
          [Node.elem "p" []
            [Node.text "x", Node.elem "b" [] [Node.text "y", Node.elem "i" [] [Node.text "z"]]],
           Node.elem "p" []
            [Node.elem "b" [] [Node.elem "b" [] [Node.elem "i" [] [Node.text "w"]]]]]]) := by
  rfl

/-- **C4** (confirmed).  `implicit_tags` synthesizes one missing
structural ancestor per loop iteration: an `html` when nothing is open
and the incoming tag is not `html` (conjuncts 1-2 show the html is
inserted and the loop continues; conjunct 3 shows nothing is inserted
for an incoming `html`); with only `html` open it inserts `head` for a
head-only tag (conjunct 1) and `body` otherwise (conjunct 2); inside
`head` an incoming non-head tag first closes the head into the html and
then opens `body` (conjunct 4); and `<title>x</title>` parses to
`html > head > title > "x"` (conjunct 5). -/
theorem c4_implicit_structural_ancestors (t1 t2 t3 : String)
    (h1 : t1 ∈ HEAD_TAGS)
    (h2a : t2 ∉ HEAD_TAGS) (h2b : t2 ∉ ["html", "head", "body", "/html"])
    (h3a : t3 ∉ HEAD_TAGS) (h3b : t3 ∉ ["head", "body", "/html", "/head"]) :
    implicit_tags 8 (some t1) [] = some [⟨"head", [], []⟩, ⟨"html", [], []⟩]
    ∧ implicit_tags 8 (some t2) [] = some [⟨"body", [], []⟩, ⟨"html", [], []⟩]
    ∧ implicit_tags 8 (some "html") [] = some []
    ∧ (∀ headEl htmlEl : OpenElem, headEl.tag = "head" → htmlEl.tag = "html" →
        implicit_tags 8 (some t3) [headEl, htmlEl] =
          some [⟨"body", [], []⟩, appendChild htmlEl (closeElem headEl)])
    ∧ parse "<title>x</title>" =
        some (Node.elem "html" [] [Node.elem "head" [] [Node.elem "title" [] [Node.text "x"]]]) := by
  have hne2 : t2 ≠ "html" := by rintro rfl; exact h2b (by decide)
  have hh2 : t2 ≠ "head" := by rintro rfl; exact h2b (by decide)
  have hb2 : t2 ≠ "body" := by rintro rfl; exact h2b (by decide)
  have hs2 : t2 ≠ "/html" := by rintro rfl; exact h2b (by decide)
  have hh3 : t3 ≠ "head" := by rintro rfl; exact h3b (by decide)
  have hb3 : t3 ≠ "body" := by rintro rfl; exact h3b (by decide)
  have hs3 : t3 ≠ "/html" := by rintro rfl; exact h3b (by decide)
  have hd3 : t3 ≠ "/head" := by rintro rfl; exact h3b (by decide)
  refine ⟨?_, ?_, rfl, ?_, rfl⟩
  · fin_cases h1 <;> rfl
  · have e1 : add_tag 7 "html" ([] : Stack) = some [⟨"html", [], []⟩] := rfl
    have e2 : add_tag 6 "body" [(⟨"html", [], []⟩ : OpenElem)] =
        some [⟨"body", [], []⟩, ⟨"html", [], []⟩] := rfl
    simp +decide [implicit_tags, openTags, hne2, hh2, hb2, hs2, h2a, e1, e2]
  · intro headEl htmlEl hhead hhtml
    obtain ⟨ht1, a1, c1⟩ := headEl
    obtain ⟨ht2, a2, c2⟩ := htmlEl
    simp only at hhead hhtml
    subst hhead hhtml
    simp +decide [implicit_tags, add_tag, openTags, get_attributes, pyStartsWith,
      open_paragraph, appendChild, closeElem, h3a, hh3, hb3, hs3, hd3]

/-- Witness for C4 at `t1 := "meta"`, `t2 := "div"`, `t3 := "div"` and a
bare open `head`/`html` pair. -/
theorem c4_implicit_structural_ancestors_witness :
    implicit_tags 8 (some "meta") [] = some [⟨"head", [], []⟩, ⟨"html", [], []⟩]
    ∧ implicit_tags 8 (some "div") [] = some [⟨"body", [], []⟩, ⟨"html", [], []⟩]
    ∧ implicit_tags 8 (some "html") [] = some []
    ∧ implicit_tags 8 (some "div") [⟨"head", [], []⟩, ⟨"html", [], []⟩] =
        some [⟨"body", [], []⟩,
          appendChild ⟨"html", [], []⟩ (closeElem ⟨"head", [], []⟩)]
    ∧ parse "<title>x</title>" =
        some (Node.elem "html" [] [Node.elem "head" [] [Node.elem "title" [] [Node.text "x"]]]) := by
  obtain ⟨p1, p2, p3, p4, p5⟩ :=
    c4_implicit_structural_ancestors "meta" "div" "div"
      (by decide) (by decide) (by decide) (by decide) (by decide)
  exact ⟨p1, p2, p3, p4 ⟨"head", [], []⟩ ⟨"html", [], []⟩ rfl rfl, p5⟩

set_option maxRecDepth 8000 in
/-- **C7** (confirmed).  A close tag (parsed name starting with `/`)
committed when, after implicit-tag insertion, only the root remains
unfinished leaves the builder's state exactly as the implicit-tag
insertion left it: nothing is popped, no child is appended, and no
error is raised.  (The fuel values are the ones `add_tag` threads to
its nested `implicit_tags` call.) -/
theorem c7_stray_close_tag_ignored (t : String) (st st' : Stack)
    (hslash : pyStartsWith t '/' = true)
    (hnospace : t.data.contains ' ' = false)
    (himp : implicit_tags (3 * st.length + 23) (some t) st = some st')
    (hlen : st'.length = 1) :
    add_tag (3 * st.length + 24) t st = some st' := by
  have hga : get_attributes t = some (t, []) := by
    unfold get_attributes
    rw [hnospace]
    simp
  have hbang : pyStartsWith t '!' = false := by
    unfold pyStartsWith at hslash ⊢
    rcases hd : t.data with _ | ⟨c, cs⟩ <;> simp_all
  show add_tag (3 * st.length + 23 + 1) t st = some st'
  rw [add_tag, hga]
  simp only [hbang, Bool.false_eq_true, if_false]
  rw [himp]
  simp only [hslash, hlen, if_true]

/-- Witness for C7: the close tag `/html` arriving on an empty stack
(the implicit-tag pass inserts the root `html`, length 1, and the close
tag is then ignored). -/
theorem c7_stray_close_tag_ignored_witness :
    add_tag 24 "/html" [] = some [⟨"html", [], []⟩] :=
  c7_stray_close_tag_ignored "/html" [] [⟨"html", [], []⟩] rfl rfl rfl rfl

/-- **C9** (confirmed).  Comments: (1) while the lexer is in comment
mode, any stretch of input without the terminator `-->` is consumed
without changing the state at all — no text is accumulated, no node is
created; (2) at `-->` the lexer leaves comment mode and flushes the
pending text buffer as a text node exactly when it is nonempty and the
scanner was not inside an open tag; (3) the spec's example
`<!-- <b>not a tag</b> -->hi` parses to a tree whose only text node is
`"hi"`, with no `b` element. -/
theorem c9_comment_skipping :
    (∀ (fuel : Nat) (st : LexState) (cs : List Char),
      st.in_comment = true → ¬ ("-->".data <:+: cs) → cs.length ≤ fuel →
      runLex fuel st cs = some st)
    ∧ (∀ (fuel : Nat) (st : LexState) (rest : List Char),
      st.in_comment = true → st.in_tag = false → st.text ≠ [] →
      runLex (fuel + 1) st ('-' :: '-' :: '>' :: rest) =
        match add_text (tagFuel st.unfinished) (⟨st.text⟩ : String) st.unfinished with
        | none => none
        | some stk =>
          runLex fuel { st with in_comment := false, text := [], unfinished := stk } rest)
    ∧ parse "<!-- <b>not a tag</b> -->hi" =
        some (Node.elem "html" [] [Node.elem "body" [] [Node.text "hi"]]) := by
  refine ⟨?_, ?_, rfl⟩
  · intro fuel st cs
    induction cs generalizing fuel with
    | nil => intro _ _ _; cases fuel <;> rfl
    | cons c rest ih =>
      intro h1 h2 h3
      cases fuel with
      | zero => simp at h3
      | succ f =>
        have hc2 : ¬ (c = '-' ∧ rest.take 2 = "->".data) := by
          rintro ⟨rfl, ht⟩
          apply h2
          rcases rest with _ | ⟨a, _ | ⟨b, r⟩⟩ <;> simp at ht
          obtain ⟨rfl, rfl⟩ := ht
          exact ⟨[], r, rfl⟩
        have hrest : ¬ ("-->".data <:+: rest) := fun h => h2 (List.infix_cons h)
        have hstep : lexStep st c rest = some (st, rest) := by
          rw [lexStep]
          rw [if_neg (fun h => h.1 h1), if_neg (fun h => hc2 h.2), if_pos h1]
        rw [runLex, hstep]
        exact ih f h1 hrest (by simpa using h3)
  · intro fuel st rest h1 h2 h3
    have hemp : ¬ st.text.isEmpty = true := by
      simp only [List.isEmpty_eq_true]
      exact h3
    have hstep : lexStep st '-' ('-' :: '>' :: rest) =
        match add_text (tagFuel st.unfinished) (⟨st.text⟩ : String) st.unfinished with
        | none => none
        | some stk =>
          some ({ st with in_comment := false, text := [], unfinished := stk }, rest) := by
      rw [lexStep]
      rw [if_neg (fun h => h.1 h1)]
      rw [if_pos ⟨h1, rfl, rfl⟩]
      rw [if_pos ⟨hemp, by simp [h2]⟩]
      rfl
    rw [runLex, hstep]
    cases hadd : add_text (tagFuel st.unfinished) (⟨st.text⟩ : String) st.unfinished <;>
      simp [hadd]

/-!
### Attribute-parser lemmas (for C6)
-/

/-- A character that the `get_attributes` state machine treats as
ordinary content: not whitespace, and none of `=`, `"`, `'`, `\`. -/
def plainAttrChar (c : Char) : Prop :=
  isPyWs c = false ∧ c ≠ '=' ∧ c ≠ '"' ∧ c ≠ '\'' ∧ c ≠ '\\'

lemma attrStep_plain_key (st : AttrState) (c : Char) (hc : plainAttrChar c)
    (hb : st.building_key = true) :
    attrStep st c = { st with current_key := st.current_key ++ [c] } := by
  obtain ⟨h1, h2, h3, h4, h5⟩ := hc
  have hsp : c ≠ ' ' := by rintro rfl; simp [isPyWs] at h1
  unfold attrStep
  rw [if_neg hsp, if_neg h2, if_neg h3, if_neg h4, if_neg h5, if_pos hb]

lemma attrStep_plain_value (st : AttrState) (c : Char) (hc : plainAttrChar c)
    (hb : st.building_key = false) :
    attrStep st c = { st with current_value := st.current_value ++ [c] } := by
  obtain ⟨h1, h2, h3, h4, h5⟩ := hc
  have hsp : c ≠ ' ' := by rintro rfl; simp [isPyWs] at h1
  unfold attrStep
  rw [if_neg hsp, if_neg h2, if_neg h3, if_neg h4, if_neg h5, if_neg (by simp [hb])]

lemma attrStep_dq_char (st : AttrState) (c : Char)
    (h3 : c ≠ '"') (h5 : c ≠ '\\')
    (hb : st.building_key = false) (hdq : st.in_double_quote = true)
    (hesc : st.in_escape = false) :
    attrStep st c = { st with current_value := st.current_value ++ [c] } := by
  unfold attrStep
  by_cases hsp : c = ' '
  · subst hsp
    rw [if_pos rfl, if_neg (by simp [hb]), if_pos (by simp [hdq])]
  · rw [if_neg hsp]
    by_cases heq : c = '='
    · subst heq
      rw [if_pos rfl, if_neg (by simp [hb])]
    · rw [if_neg heq, if_neg h3]
      by_cases hq : c = '\''
      · subst hq
        rw [if_pos rfl, if_neg (by simp [hesc]), if_pos (by simp [hdq])]
      · rw [if_neg hq, if_neg h5, if_neg (by simp [hb])]

lemma attrStep_eq_key (st : AttrState) (hb : st.building_key = true)
    (hk : ¬ st.current_key.isEmpty = true) :
    attrStep st '=' = { st with building_key := false } := by
  unfold attrStep
  rw [if_neg (by decide), if_pos rfl, if_pos hb, if_neg hk]

lemma attrStep_space_commit (st : AttrState) (hb : st.building_key = false)
    (hsq : st.in_single_quote = false) (hdq : st.in_double_quote = false) :
    attrStep st ' ' = attrCommit st := by
  unfold attrStep
  rw [if_pos rfl, if_neg (by simp [hb]), if_neg (by simp [hsq, hdq])]

lemma attrStep_dq_open (st : AttrState) (hsq : st.in_single_quote = false)
    (hdq : st.in_double_quote = false) (hesc : st.in_escape = false) :
    attrStep st '"' = { st with in_double_quote := true } := by
  unfold attrStep
  rw [if_neg (by decide), if_neg (by decide), if_pos rfl,
    if_neg (by simp [hesc]), if_neg (by simp [hsq]), if_neg (by simp [hdq]), hdq]
  simp

lemma attrStep_dq_close (st : AttrState) (hsq : st.in_single_quote = false)
    (hdq : st.in_double_quote = true) (hesc : st.in_escape = false) :
    attrStep st '"' = { attrCommit st with in_double_quote := false } := by
  unfold attrStep
  rw [if_neg (by decide), if_neg (by decide), if_pos rfl,
    if_neg (by simp [hesc]), if_neg (by simp [hsq]), if_pos (by simp [hdq]), hdq]
  simp

lemma attrRun_key (k : List Char) :
    ∀ st : AttrState, st.building_key = true →
    (∀ c ∈ k, plainAttrChar c) →
    k.foldl attrStep st = { st with current_key := st.current_key ++ k } := by
  induction k with
  | nil => intro st _ _; simp
  | cons c k ih =>
    intro st hb hk
    rw [List.foldl_cons, attrStep_plain_key st c (hk c (by simp)) hb,
      ih _ (by simp [hb]) (fun d hd => hk d (by simp [hd]))]
    simp

lemma attrRun_value (v : List Char) :
    ∀ st : AttrState, st.building_key = false →
    (∀ c ∈ v, plainAttrChar c) →
    v.foldl attrStep st = { st with current_value := st.current_value ++ v } := by
  induction v with
  | nil => intro st _ _; simp
  | cons c v ih =>
    intro st hb hv
    rw [List.foldl_cons, attrStep_plain_value st c (hv c (by simp)) hb,
      ih _ (by simp [hb]) (fun d hd => hv d (by simp [hd]))]
    simp

lemma attrRun_dq (v : List Char) :
    ∀ st : AttrState, st.building_key = false → st.in_double_quote = true →
    st.in_escape = false →
    (∀ c ∈ v, c ≠ '"' ∧ c ≠ '\\') →
    v.foldl attrStep st = { st with current_value := st.current_value ++ v } := by
  induction v with
  | nil => intro st _ _ _ _; simp
  | cons c v ih =>
    intro st hb hdq hesc hv
    rw [List.foldl_cons,
      attrStep_dq_char st c (hv c (by simp)).1 (hv c (by simp)).2 hb hdq hesc,
      ih _ (by simp [hb]) (by simp [hdq]) (by simp [hesc]) (fun d hd => hv d (by simp [hd]))]
    simp

lemma pySplit1_t_space (c : Char) (rest : List Char) (hc : isPyWs c = false) :
    pySplit1 ⟨'t' :: ' ' :: c :: rest⟩ = some ("t", ⟨c :: rest⟩) := by
  have hdw : List.dropWhile isPyWs (c :: rest) = c :: rest := by
    rw [List.dropWhile_cons, hc]
    simp
  have step1 : pySplit1 ⟨'t' :: ' ' :: c :: rest⟩ =
      (if (List.dropWhile isPyWs (c :: rest)).isEmpty then none
       else some ((⟨['t']⟩ : String), (⟨List.dropWhile isPyWs (c :: rest)⟩ : String))) := rfl
  rw [step1, hdw]
  simp

lemma get_attributes_t_space (c : Char) (rest : List Char) (hc : isPyWs c = false) :
    get_attributes ⟨'t' :: ' ' :: c :: rest⟩ =
      some ("t", attrFinalize ((c :: rest).foldl attrStep AttrState.init)) := by
  unfold get_attributes
  rw [if_neg (fun h => h rfl), pySplit1_t_space c rest hc]

lemma attr_foldl_two_pairs (k1 v1 k2 v2 : List Char)
    (hk1 : k1 ≠ []) (hpk1 : ∀ c ∈ k1, plainAttrChar c)
    (hv1 : ∀ c ∈ v1, plainAttrChar c)
    (hk2 : k2 ≠ []) (hpk2 : ∀ c ∈ k2, plainAttrChar c)
    (hv2 : ∀ c ∈ v2, plainAttrChar c) :
    (k1 ++ ('=' :: (v1 ++ (' ' :: (k2 ++ ('=' :: v2)))))).foldl attrStep AttrState.init =
      { attributes := [(lowerStr ⟨k1⟩, (⟨v1⟩ : String))], current_key := k2,
        current_value := v2, building_key := false, in_escape := false,
        in_single_quote := false, in_double_quote := false } := by
  rw [List.foldl_append, attrRun_key k1 _ rfl hpk1, List.foldl_cons,
    attrStep_eq_key _ rfl (by simp [hk1]), List.foldl_append,
    attrRun_value v1 _ rfl hv1, List.foldl_cons,
    attrStep_space_commit _ rfl rfl rfl, List.foldl_append]
  rw [attrRun_key k2 _ rfl hpk2, List.foldl_cons,
    attrStep_eq_key _ rfl (by simp [hk2]), attrRun_value v2 _ rfl hv2]
  simp [attrCommit, dictInsert, AttrState.init]

lemma attr_foldl_quoted (k1 u w : List Char)
    (hk1 : k1 ≠ []) (hpk1 : ∀ c ∈ k1, plainAttrChar c)
    (hu : ∀ c ∈ u, plainAttrChar c) (hw : ∀ c ∈ w, plainAttrChar c) :
    (k1 ++ ('=' :: '"' :: (u ++ (' ' :: (w ++ ['"']))))).foldl attrStep AttrState.init =
      { attributes := [(lowerStr ⟨k1⟩, (⟨u ++ (' ' :: w)⟩ : String))], current_key := [],
        current_value := [], building_key := true, in_escape := false,
        in_single_quote := false, in_double_quote := false } := by
  have hassoc : u ++ (' ' :: (w ++ ['"'])) = (u ++ (' ' :: w)) ++ ['"'] := by simp
  have hchars : ∀ c ∈ u ++ (' ' :: w), c ≠ '"' ∧ c ≠ '\\' := by
    intro c hcmem
    rcases List.mem_append.mp hcmem with hcu | hcw
    · exact ⟨(hu c hcu).2.2.1, (hu c hcu).2.2.2.2⟩
    · rcases List.mem_cons.mp hcw with rfl | hcw'
      · exact ⟨by decide, by decide⟩
      · exact ⟨(hw c hcw').2.2.1, (hw c hcw').2.2.2.2⟩
  rw [List.foldl_append, attrRun_key k1 _ rfl hpk1, List.foldl_cons,
    attrStep_eq_key _ rfl (by simp [hk1]), List.foldl_cons,
    attrStep_dq_open _ rfl rfl rfl, hassoc, List.foldl_append,
    attrRun_dq _ _ rfl rfl rfl hchars, List.foldl_cons,
    attrStep_dq_close _ rfl rfl rfl]
  simp [attrCommit, dictInsert, AttrState.init]

instance (c : Char) : Decidable (plainAttrChar c) := by
  unfold plainAttrChar
  infer_instance

/-- **C6** (confirmed).  The attribute parser honors quoting: an
unquoted value ends at whitespace and the next `key=value` pair begins
(conjunct 1); a duplicate attribute name overwrites the earlier value
(conjunct 2); a double-quoted value may contain spaces and ends only at
the matching quote (conjunct 3); names are lower-cased on insertion
(the `lowerStr` in every conclusion); and the spec's example
`class="a b" id=\'x\'` yields the mapping
`{"class": "a b", "id": "x"}` (conjunct 4). -/
theorem c6_attribute_quoting (k1 v1 k2 v2 u w : List Char)
    (hk1 : k1 ≠ []) (hpk1 : ∀ c ∈ k1, plainAttrChar c)
    (hv1 : ∀ c ∈ v1, plainAttrChar c)
    (hk2 : k2 ≠ []) (hpk2 : ∀ c ∈ k2, plainAttrChar c)
    (hv2 : ∀ c ∈ v2, plainAttrChar c)
    (hkk : lowerStr ⟨k1⟩ ≠ lowerStr ⟨k2⟩)
    (hu : ∀ c ∈ u, plainAttrChar c) (hw : ∀ c ∈ w, plainAttrChar c) :
    get_attributes ⟨'t' :: ' ' :: (k1 ++ ('=' :: (v1 ++ (' ' :: (k2 ++ ('=' :: v2))))))⟩ =
      some ("t", [(lowerStr ⟨k1⟩, ⟨v1⟩), (lowerStr ⟨k2⟩, ⟨v2⟩)])
    ∧ get_attributes ⟨'t' :: ' ' :: (k1 ++ ('=' :: (v1 ++ (' ' :: (k1 ++ ('=' :: v2))))))⟩ =
      some ("t", [(lowerStr ⟨k1⟩, ⟨v2⟩)])
    ∧ get_attributes ⟨'t' :: ' ' :: (k1 ++ ('=' :: '"' :: (u ++ (' ' :: (w ++ ['"'])))))⟩ =
      some ("t", [(lowerStr ⟨k1⟩, ⟨u ++ (' ' :: w)⟩)])
    ∧ get_attributes "tag class=\"a b\" id='x'" =
      some ("tag", [("class", "a b"), ("id", "x")]) := by
  obtain ⟨c, k1', rfl⟩ : ∃ c k1', k1 = c :: k1' := by
    cases k1 with
    | nil => exact absurd rfl hk1
    | cons c k1' => exact ⟨c, k1', rfl⟩
  have hc : isPyWs c = false := (hpk1 c (by simp)).1
  refine ⟨?_, ?_, ?_, rfl⟩
  · rw [show (c :: k1') ++ ('=' :: (v1 ++ (' ' :: (k2 ++ ('=' :: v2))))) =
        c :: (k1' ++ ('=' :: (v1 ++ (' ' :: (k2 ++ ('=' :: v2)))))) from rfl]
    rw [get_attributes_t_space c _ hc]
    rw [show c :: (k1' ++ ('=' :: (v1 ++ (' ' :: (k2 ++ ('=' :: v2)))))) =
        (c :: k1') ++ ('=' :: (v1 ++ (' ' :: (k2 ++ ('=' :: v2))))) from rfl]
    rw [attr_foldl_two_pairs (c :: k1') v1 k2 v2 hk1 hpk1 hv1 hk2 hpk2 hv2]
    unfold attrFinalize
    rw [if_neg (by simp [hk2])]
    simp [dictInsert, hkk]
  · rw [show (c :: k1') ++ ('=' :: (v1 ++ (' ' :: ((c :: k1') ++ ('=' :: v2))))) =
        c :: (k1' ++ ('=' :: (v1 ++ (' ' :: ((c :: k1') ++ ('=' :: v2)))))) from rfl]
    rw [get_attributes_t_space c _ hc]
    rw [show c :: (k1' ++ ('=' :: (v1 ++ (' ' :: ((c :: k1') ++ ('=' :: v2)))))) =
        (c :: k1') ++ ('=' :: (v1 ++ (' ' :: ((c :: k1') ++ ('=' :: v2))))) from rfl]
    rw [attr_foldl_two_pairs (c :: k1') v1 (c :: k1') v2 hk1 hpk1 hv1 hk1 hpk1 hv2]
    unfold attrFinalize
    rw [if_neg (by simp [hk1])]
    simp [dictInsert]
  · rw [show (c :: k1') ++ ('=' :: '"' :: (u ++ (' ' :: (w ++ ['"'])))) =
        c :: (k1' ++ ('=' :: '"' :: (u ++ (' ' :: (w ++ ['"']))))) from rfl]
    rw [get_attributes_t_space c _ hc]
    rw [show c :: (k1' ++ ('=' :: '"' :: (u ++ (' ' :: (w ++ ['"']))))) =
        (c :: k1') ++ ('=' :: '"' :: (u ++ (' ' :: (w ++ ['"'])))) from rfl]
    rw [attr_foldl_quoted (c :: k1') u w hk1 hpk1 hu hw]
    unfold attrFinalize
    rw [if_pos (by simp)]

/-- Witness for C6 at `k1 := "iD"`, `v1 := "a"`, `k2 := "x"`,
`v2 := "bc"`, `u := "p"`, `w := "q"`. -/
theorem c6_attribute_quoting_witness :
    get_attributes "t iD=a x=bc" = some ("t", [("id", "a"), ("x", "bc")])
    ∧ get_attributes "t iD=a iD=bc" = some ("t", [("id", "bc")])
    ∧ get_attributes "t iD=\"p q\"" = some ("t", [("id", "p q")])
    ∧ get_attributes "tag class=\"a b\" id='x'" =
      some ("tag", [("class", "a b"), ("id", "x")]) :=
  c6_attribute_quoting ['i', 'D'] ['a'] ['x'] ['b', 'c'] ['p'] ['q']
    (by decide) (by decide) (by decide) (by decide) (by decide) (by decide)
    (by decide) (by decide) (by decide)

/-!
### The faulty layout call (for C2)
-/

mutual

/-- Does a node's subtree contain a non-whitespace `Text` node?  (The
wording of the claim's hypothesis.) -/
def hasNonWsText : Node → Bool
  | Node.text s => ¬ pyIsSpace s
  | Node.elem _ _ children => hasNonWsTextList children

def hasNonWsTextList : List Node → Bool
  | [] => false
  | c :: cs => hasNonWsText c || hasNonWsTextList cs

end

lemma callGetFont3_eq : callGetFont3 = Except.error PyErr.typeError := rfl

lemma errorBindPy (f : Unit → Except PyErr Unit) :
    (Except.error PyErr.typeError >>= f) = Except.error PyErr.typeError := rfl

lemma okBindPy (f : Unit → Except PyErr Unit) :
    (Except.ok () >>= f) = f () := rfl

mutual

theorem recurseChecked_eq (n : Node) :
    recurseChecked n =
      (if hasTextNode n then Except.error PyErr.typeError else Except.ok ()) := by
  cases n with
  | text s => rfl
  | elem tag attrs children =>
    show recurseListChecked children = _
    rw [recurseListChecked_eq children]
    rfl

theorem recurseListChecked_eq (l : List Node) :
    recurseListChecked l =
      (if hasTextNodeList l then Except.error PyErr.typeError else Except.ok ()) := by
  cases l with
  | nil => rfl
  | cons c cs =>
    show (do recurseChecked c; recurseListChecked cs) = _
    rw [recurseChecked_eq c, recurseListChecked_eq cs]
    by_cases h : hasTextNode c <;>
      simp [h, hasTextNodeList, errorBindPy, okBindPy]

end

mutual

theorem layoutChecked_eq (n : Node) :
    layoutChecked n =
      (if textReachable n then Except.error PyErr.typeError else Except.ok ()) := by
  cases n with
  | text s => rfl
  | elem tag attrs children =>
    show (if layout_mode (Node.elem tag attrs children) = "block" then
            layoutBoxesChecked children
          else recurseChecked (Node.elem tag attrs children)) = _
    by_cases hm : layout_mode (Node.elem tag attrs children) = "block"
    · rw [if_pos hm, layoutBoxesChecked_eq children]
      simp [textReachable, hm]
    · rw [if_neg hm, recurseChecked_eq]
      simp [textReachable, hm, hasTextNode]

theorem layoutBoxesChecked_eq (l : List Node) :
    layoutBoxesChecked l =
      (if textReachableList l then Except.error PyErr.typeError else Except.ok ()) := by
  cases l with
  | nil => rfl
  | cons c cs =>
    show (if isElemTag "head" c then layoutBoxesChecked cs
          else do layoutChecked c; layoutBoxesChecked cs) = _
    by_cases hh : isElemTag "head" c = true
    · rw [if_pos hh, layoutBoxesChecked_eq cs]
      simp [textReachableList, hh]
    · rw [if_neg hh]
      show (do layoutChecked c; layoutBoxesChecked cs) = _
      rw [layoutChecked_eq c, layoutBoxesChecked_eq cs]
      by_cases h : textReachable c <;>
        simp [h, textReachableList, hh, errorBindPy, okBindPy]

end

/-- **C2** (corrected).  `BlockLayout.text` calls `get_font` with three
arguments while the imported `chapter3.get_font` requires four, so the
call raises `TypeError`; consequently the layout pass fails on every
tree whose layout traversal reaches a `Text` node.  (The original
claim quantified over every tree containing a non-whitespace `Text`
node; that is refuted by `c2_head_text_layout_completes`: text sitting
only under a skipped `head` child is never reached, and layout
completes normally.) -/
theorem c2_get_font_arity_type_error :
    textCallArgCount ≠ getFontParamCount
    ∧ (∀ n : Node, documentLayoutChecked n =
        (if textReachable n then Except.error PyErr.typeError else Except.ok ())) :=
  ⟨by decide, fun n => layoutChecked_eq n⟩

/-- Counterexample to C2 as stated: the tree
`html > (head > title > "x", body)` contains the non-whitespace text
node `"x"`, yet the layout pass completes normally: `body` puts `html`
in block mode, the `head` child carries no box, and its subtree is
never visited. -/
theorem c2_head_text_layout_completes :
    hasNonWsText (Node.elem "html" []
      [Node.elem "head" [] [Node.elem "title" [] [Node.text "x"]],
       Node.elem "body" [] []]) = true
    ∧ documentLayoutChecked (Node.elem "html" []
      [Node.elem "head" [] [Node.elem "title" [] [Node.text "x"]],
       Node.elem "body" [] []]) = Except.ok () := by
  refine ⟨rfl, ?_⟩
  rw [show documentLayoutChecked (Node.elem "html" []
      [Node.elem "head" [] [Node.elem "title" [] [Node.text "x"]],
       Node.elem "body" [] []]) =
    layoutChecked (Node.elem "html" []
      [Node.elem "head" [] [Node.elem "title" [] [Node.text "x"]],
       Node.elem "body" [] []]) from rfl]
  rw [layoutChecked_eq]
  simp +decide [textReachable, textReachableList, layout_mode, isElemTag]

/-!
### Line-breaking bounds (for C5)
-/

/-- The bound invariant of `BlockLayout.text`: every pending line item
fits inside `width` in line-relative coordinates, every flushed display
item fits inside the box's right edge `x + width` in absolute
coordinates, and an empty pending line means the cursor is at the line
start. -/
def lineBound (fo : FontOracle) (x0 width0 : Int) (st : InlineState) : Prop :=
  (st.line = [] → st.cursor_x = 0)
  ∧ (∀ it ∈ st.line, it.1 + fo.measure it.2.2 it.2.1 ≤ width0)
  ∧ (∀ it ∈ st.display_list,
      it.1 + (fo.measure it.2.2.2 it.2.2.1 : ℚ) ≤ (x0 : ℚ) + (width0 : ℚ))

lemma flush_fields (fo : FontOracle) (y : ℚ) (st : InlineState) :
    (BlockLayout.flush fo y st).x = st.x
    ∧ (BlockLayout.flush fo y st).width = st.width
    ∧ (BlockLayout.flush fo y st).size = st.size
    ∧ (BlockLayout.flush fo y st).weight = st.weight
    ∧ (BlockLayout.flush fo y st).style = st.style := by
  unfold BlockLayout.flush
  by_cases h : st.line.isEmpty <;> simp [h]

lemma flush_lineBound (fo : FontOracle) (y : ℚ) (x0 width0 : Int) (st : InlineState)
    (hx : st.x = x0) (hw : st.width = width0)
    (hb : lineBound fo x0 width0 st) :
    (lineBound fo x0 width0 (BlockLayout.flush fo y st)
      ∧ (BlockLayout.flush fo y st).line = []
      ∧ (BlockLayout.flush fo y st).cursor_x = 0) ∨
    (st.line = [] ∧ BlockLayout.flush fo y st = st) := by
  by_cases h : st.line.isEmpty
  · right
    refine ⟨by simpa using h, ?_⟩
    unfold BlockLayout.flush
    rw [if_pos h]
  · left
    obtain ⟨h0, h1, h2⟩ := hb
    have hflush : BlockLayout.flush fo y st =
        { st with
          display_list := st.display_list ++ st.line.map (fun it =>
            (((st.x : ℚ) + (it.1 : ℚ)),
              y + (st.cursor_y + (5 / 4 : ℚ) *
                ((listMaxInt (st.line.map (fun it => fo.ascent it.2.2))) : ℚ))
                - (fo.ascent it.2.2 : ℚ), it.2.1, it.2.2)),
          cursor_x := 0, line := [],
          cursor_y := (st.cursor_y + (5 / 4 : ℚ) *
              ((listMaxInt (st.line.map (fun it => fo.ascent it.2.2))) : ℚ))
            + (5 / 4 : ℚ) * ((listMaxInt (st.line.map (fun it => fo.descent it.2.2))) : ℚ),
          line_height :=
            if st.line_height = 0 then
              (st.cursor_y + (5 / 4 : ℚ) *
                  ((listMaxInt (st.line.map (fun it => fo.ascent it.2.2))) : ℚ))
                + (5 / 4 : ℚ) * ((listMaxInt (st.line.map (fun it => fo.descent it.2.2))) : ℚ)
            else st.line_height } := by
      unfold BlockLayout.flush
      rw [if_neg h]
    rw [hflush]
    refine ⟨⟨fun _ => rfl, by simp, ?_⟩, rfl, rfl⟩
    intro it hit
    simp only [List.mem_append] at hit
    rcases hit with hit | hit
    · exact h2 it hit
    · simp only [List.mem_map] at hit
      obtain ⟨jt, hjt, rfl⟩ := hit
      have hj := h1 jt hjt
      have hcast : (jt.1 : ℚ) + (fo.measure jt.2.2 jt.2.1 : ℚ) ≤ (width0 : ℚ) := by
        have hj' : ((jt.1 + fo.measure jt.2.2 jt.2.1 : Int) : ℚ) ≤ ((width0 : Int) : ℚ) := by
          exact_mod_cast hj
        push_cast at hj'
        linarith
      simp only [hx]
      linarith

lemma text_fold_lineBound (fo : FontOracle) (font : Font) (y : ℚ) (x0 width0 : Int) :
    ∀ (words : List String) (st : InlineState),
    st.x = x0 → st.width = width0 →
    (∀ w ∈ words, fo.measure font w ≤ width0) →
    lineBound fo x0 width0 st →
    lineBound fo x0 width0
      (words.foldl (fun st word =>
        let w := fo.measure font word
        let st := if st.cursor_x + w > st.width then BlockLayout.flush fo y st else st
        { st with
          line := st.line ++ [(st.cursor_x, word, font)],
          cursor_x := st.cursor_x + w + fo.measure font " " }) st) := by
  intro words
  induction words with
  | nil => intro st _ _ _ hb; exact hb
  | cons word ws ih =>
    intro st hx hw hwords hb
    rw [List.foldl_cons]
    simp only
    have hwle : fo.measure font word ≤ width0 := hwords word (by simp)
    by_cases hcond : st.cursor_x + fo.measure font word > st.width
    · rw [if_pos hcond]
      rcases flush_lineBound fo y x0 width0 st hx hw hb with
        ⟨hb', hline', hcur'⟩ | ⟨hempty, heq⟩
      · have hx' : (BlockLayout.flush fo y st).x = x0 := by
          rw [(flush_fields fo y st).1, hx]
        have hw' : (BlockLayout.flush fo y st).width = width0 := by
          rw [(flush_fields fo y st).2.1, hw]
        apply ih _ (by simp [hx']) (by simp [hw'])
          (fun v hv => hwords v (by simp [hv]))
        refine ⟨by simp [hline'], ?_, ?_⟩
        · intro it hit
          simp only [hline', List.nil_append, List.mem_singleton] at hit
          subst hit
          simpa [hcur'] using hwle
        · intro it hit
          exact hb'.2.2 it (by simpa using hit)
      · have hcur0 : st.cursor_x = 0 := hb.1 hempty
        rw [heq]
        apply ih _ (by simp [hx]) (by simp [hw])
          (fun v hv => hwords v (by simp [hv]))
        refine ⟨by simp [hempty], ?_, ?_⟩
        · intro it hit
          simp only [hempty, List.nil_append, List.mem_singleton] at hit
          subst hit
          simpa [hcur0] using hwle
        · intro it hit
          exact hb.2.2 it (by simpa using hit)
    · rw [if_neg hcond]
      apply ih _ (by simp [hx]) (by simp [hw])
        (fun v hv => hwords v (by simp [hv]))
      refine ⟨by simp, ?_, ?_⟩
      · intro it hit
        simp only [List.mem_append, List.mem_singleton] at hit
        rcases hit with hit | rfl
        · exact hb.2.1 it hit
        · simp only
          rw [hw] at hcond
          omega
      · intro it hit
        exact hb.2.2 it (by simpa using hit)

/-- **C5** (corrected).  During a single `BlockLayout.text` call started
with an empty pending line and the cursor at the line start, *provided
every word's measured width is at most the box's width*, no recorded
line item's position plus measured width passes the box's width, and no
flushed display item passes the box's right edge `x + width` — in
particular none exceeds it by more than one space-width.  (The original
claim, with no bound on individual words, is refuted by
`c5_wide_word_exceeds_right_edge`: a single word wider than the box is
placed at the line start and overruns the right edge arbitrarily; the
word-fits hypothesis is exactly what that counterexample forces.  The
flush check `cursor_x + w > width` does not count the trailing space,
so the bound holds with no space-width slack at all.) -/
theorem c5_word_wrap_within_width (fo : FontOracle) (y : ℚ) (st : InlineState) (s : String)
    (hline : st.line = []) (hcur : st.cursor_x = 0) (hdisp : st.display_list = [])
    (hwords : ∀ w ∈ pySplitWs s,
      fo.measure { size := st.size, weight := st.weight, style := st.style } w ≤ st.width) :
    (∀ it ∈ (BlockLayout.text fo y st s).line,
      it.1 + fo.measure it.2.2 it.2.1 ≤ st.width)
    ∧ (∀ it ∈ (BlockLayout.text fo y st s).display_list,
      it.1 + (fo.measure it.2.2.2 it.2.2.1 : ℚ) ≤ (st.x : ℚ) + (st.width : ℚ)) := by
  have hb := text_fold_lineBound fo
    { size := st.size, weight := st.weight, style := st.style } y st.x st.width
    (pySplitWs s) st rfl rfl hwords
    ⟨fun _ => hcur, by simp [hline], by simp [hdisp]⟩
  exact ⟨hb.2.1, hb.2.2⟩

/-- A concrete font oracle for the C5 counterexample: every character
measures 10 pixels. -/
def c5fo : FontOracle :=
  { measure := fun _ s => 10 * (s.data.length : Int),
    ascent := fun _ => 8, descent := fun _ => 4, linespace := fun _ => 15 }

/-- A concrete inline state: a 100-pixel-wide box at the origin, at the
start of the inline branch of `BlockLayout.layout`. -/
def c5st : InlineState :=
  { x := 0, width := 100, cursor_x := 0, cursor_y := 0,
    weight := "normal", style := "roman", size := 16, line_height := 0,
    line := [], display_list := [] }

/-- Counterexample to C5 as stated.  First conjunct: a 20-character word
(measured width 200) in a 100-pixel box is placed at the line start and
its `x + measured_width` exceeds the right edge by far more than one
space-width (200 > 100 + 10), because `BlockLayout.text` never breaks a
single word.  Remaining conjuncts: for `"aaaa bbbbb"` the second word
is placed with `cursor_x + w = 100 ≤ width` but `cursor_x + w + space =
110 > width`, and no flush happens (the display list stays empty and
both words share the pending line): the flush check does not include
the trailing space the claim describes. -/
theorem c5_wide_word_exceeds_right_edge :
    (∃ it ∈ (BlockLayout.text c5fo 0 c5st "aaaaaaaaaaaaaaaaaaaa").line,
      c5st.width + c5fo.measure it.2.2 " " < it.1 + c5fo.measure it.2.2 it.2.1)
    ∧ (BlockLayout.text c5fo 0 c5st "aaaa bbbbb").display_list = []
    ∧ (BlockLayout.text c5fo 0 c5st "aaaa bbbbb").line =
        [(0, "aaaa", ⟨16, "normal", "roman"⟩), (50, "bbbbb", ⟨16, "normal", "roman"⟩)]
    ∧ c5st.width <
        50 + c5fo.measure ⟨16, "normal", "roman"⟩ "bbbbb"
          + c5fo.measure ⟨16, "normal", "roman"⟩ " " := by
  refine ⟨⟨(0, "aaaaaaaaaaaaaaaaaaaa", ⟨16, "normal", "roman"⟩), ?_, by decide⟩,
    rfl, rfl, by decide⟩
  rw [show (BlockLayout.text c5fo 0 c5st "aaaaaaaaaaaaaaaaaaaa").line =
    [(0, "aaaaaaaaaaaaaaaaaaaa", ⟨16, "normal", "roman"⟩)] from rfl]
  simp

/-- Witness for the amended C5 at the oracle `c5fo`, the state `c5st`
and the text `"aa bb"` (both items of the resulting pending line stay
inside the 100-pixel width). -/
theorem c5_word_wrap_within_width_witness :
    (0 : Int) + c5fo.measure ⟨16, "normal", "roman"⟩ "aa" ≤ c5st.width
    ∧ (30 : Int) + c5fo.measure ⟨16, "normal", "roman"⟩ "bb" ≤ c5st.width := by
  have hl : (BlockLayout.text c5fo 0 c5st "aa bb").line =
      [(0, "aa", ⟨16, "normal", "roman"⟩), (30, "bb", ⟨16, "normal", "roman"⟩)] := rfl
  have h := (c5_word_wrap_within_width c5fo 0 c5st "aa bb" rfl rfl rfl (by decide)).1
  exact ⟨h (0, "aa", ⟨16, "normal", "roman"⟩) (by rw [hl]; simp),
    h (30, "bb", ⟨16, "normal", "roman"⟩) (by rw [hl]; simp)⟩

/-!
### Box-tree invariants (for C8)
-/

/-- The node children that receive a box in the block branch: every
child except `head` elements. -/
def nonHeadChildren (n : Node) : List Node :=
  n.childrenOf.filter (fun c => ¬ isElemTag "head" c)

lemma layoutBox_node (fo : FontOracle) (n : Node) (x : Int) (y : ℚ) (width : Int) :
    (layoutBox fo n x y width).node = n := by
  cases n with
  | text s => rw [layoutBox]; rfl
  | elem tag attrs children =>
    rw [layoutBox]
    by_cases hm : layout_mode (Node.elem tag attrs children) = "block" <;>
      simp [hm, Box.node]

mutual

/-- The invariant C8 states for every box of a laid-out tree: a
block-mode box's height is the sum of its children's heights and its
child boxes are exactly the non-`head` child nodes in order; an
inline-mode box's height is the final `cursor_y` the flush procedure
left behind. -/
def BoxOK : Box → Prop
  | Box.mk node _ _ _ height children _ _ cy =>
    (layout_mode node = "block" →
      height = sumHeights children ∧ children.map Box.node = nonHeadChildren node)
    ∧ (layout_mode node = "inline" → cy = some height)
    ∧ BoxListOK children

def BoxListOK : List Box → Prop
  | [] => True
  | b :: bs => BoxOK b ∧ BoxListOK bs

end

mutual

theorem layoutBox_ok_aux (fo : FontOracle) (n : Node) :
    ∀ (x : Int) (y : ℚ) (width : Int), BoxOK (layoutBox fo n x y width) := by
  cases n with
  | text s =>
    intro x y width
    rw [layoutBox]
    exact ⟨fun h => absurd h (by simp [layout_mode]), fun _ => rfl, trivial⟩
  | elem tag attrs children =>
    intro x y width
    rw [layoutBox]
    by_cases hm : layout_mode (Node.elem tag attrs children) = "block"
    · rw [if_pos hm]
      refine ⟨fun _ => ⟨rfl, ?_⟩, fun h => absurd hm (by rw [h]; decide), ?_⟩
      · rw [(layoutBoxes_ok_aux fo children x y width).2]
        rfl
      · exact (layoutBoxes_ok_aux fo children x y width).1
    · rw [if_neg hm]
      exact ⟨fun h => absurd h hm, fun _ => rfl, trivial⟩

theorem layoutBoxes_ok_aux (fo : FontOracle) (l : List Node) :
    ∀ (x : Int) (y : ℚ) (width : Int),
    BoxListOK (layoutBoxes fo l x y width)
    ∧ (layoutBoxes fo l x y width).map Box.node =
        l.filter (fun c => ¬ isElemTag "head" c) := by
  cases l with
  | nil => intro x y width; exact ⟨trivial, rfl⟩
  | cons c cs =>
    intro x y width
    rw [layoutBoxes]
    by_cases hh : isElemTag "head" c = true
    · rw [if_pos hh]
      refine ⟨(layoutBoxes_ok_aux fo cs x y width).1, ?_⟩
      rw [(layoutBoxes_ok_aux fo cs x y width).2]
      simp [List.filter, hh]
    · rw [if_neg hh]
      refine ⟨⟨layoutBox_ok_aux fo c x y width, (layoutBoxes_ok_aux fo cs _ _ _).1⟩, ?_⟩
      simp only [List.map_cons, layoutBox_node, (layoutBoxes_ok_aux fo cs _ _ _).2]
      simp [List.filter, hh]

end

/-- **C8** (confirmed).  For every box of a laid-out tree (any node, any
inherited geometry): a block-mode box's height equals the sum of its
children's heights, its child boxes are exactly its node's non-`head`
children in order (a `head` child contributes no box), and an
inline-mode box's height equals the final line cursor position
(`cursor_y`) produced by the flush procedure. -/
theorem c8_box_heights (fo : FontOracle) (n : Node) (x : Int) (y : ℚ) (width : Int) :
    BoxOK (layoutBox fo n x y width) :=
  layoutBox_ok_aux fo n x y width

/-- **C10** (confirmed).  Running `DocumentLayout.layout` twice on the
same document tree with the same viewport geometry and building the
paint list from each result yields identical paint lists: layout is a
deterministic function of the tree, the constants and the injected font
metrics, and `paint` reads `children[0]`, which the second `layout`
call's append leaves in place. -/
theorem c10_relayout_paint_unchanged (fo : FontOracle) (n : Node) :
    DocumentLayout.paint fo
        (DocumentLayout.layout fo (DocumentLayout.layout fo (DocumentLayout.init n))) =
      DocumentLayout.paint fo (DocumentLayout.layout fo (DocumentLayout.init n)) := rfl

/-- Witness for C9: skipping two ordinary characters in comment mode
leaves the lexer state untouched, and `-->` with pending text `"hi"`
outside a tag flushes it as a text node (under the implicit
`html`/`body`). -/
theorem c9_comment_skipping_witness :
    runLex 2 ⟨[], false, true, false, false, false, []⟩ ['a', 'b'] =
      some ⟨[], false, true, false, false, false, []⟩
    ∧ runLex 1 ⟨['h', 'i'], false, true, false, false, false, []⟩ ['-', '-', '>'] =
      some ⟨[], false, false, false, false, false,
        [⟨"body", [], [Node.text "hi"]⟩, ⟨"html", [], []⟩]⟩ := by
  constructor
  · exact c9_comment_skipping.1 2 ⟨[], false, true, false, false, false, []⟩ ['a', 'b']
      rfl (by decide) (by decide)
  · exact (c9_comment_skipping.2.1 0 ⟨['h', 'i'], false, true, false, false, false, []⟩ []
      rfl rfl (by simp)).trans rfl
